import Mathlib

/-!
Verification development for the Green-Wall spider robot code base.

The definitions below are a shallow embedding of the Python sources:
* src/calculations/kinematics.py  (leg forward/inverse kinematics, Jacobian,
  platform forward kinematics, spider pose estimation),
* src/calculations.py             (GeometryTools.calculateSignedAngleBetweenTwoVectors,
  MatrixCalculator.xyzRpyToMatrix),
* src/environment/spider.py       (geometry constants),
* src/gwpspider/planning/pathplanner.py (body path, pin selection filter,
  walking instructions, start pose correction loop).

Machine floats are embedded as real numbers; np.round(x, 4) is embedded
exactly as round-half-to-even at four decimals; math.acos raising ValueError
outside [-1, 1] is embedded by an Option result.
-/

open Real

noncomputable section

namespace GreenWall

open scoped Classical

/-- spider.LEGS_DIMENSIONS[0]: first link length in meters. -/
def L1 : ℝ := 0.064

/-- spider.LEGS_DIMENSIONS[1]: second link length in meters. -/
def L2 : ℝ := 0.3

/-- spider.LEGS_DIMENSIONS[2]: third link length in meters. -/
def L3 : ℝ := 0.276

/-- Rounding used by np.round: round half to even, on a real scalar. -/
def roundHalfEven (y : ℝ) : ℤ :=
  if Int.fract y < 1 / 2 then ⌊y⌋
  else if 1 / 2 < Int.fract y then ⌊y⌋ + 1
  else if 2 ∣ ⌊y⌋ then ⌊y⌋ else ⌊y⌋ + 1

/-- np.round(x, 4): round to four decimal places, half to even. -/
def round4 (x : ℝ) : ℝ := (roundHalfEven (x * 10000) : ℝ) / 10000

/-- math.atan2, by case analysis on the quadrant. -/
def atan2 (y x : ℝ) : ℝ :=
  if 0 < x then arctan (y / x)
  else if x < 0 then (if 0 ≤ y then arctan (y / x) + π else arctan (y / x) - π)
  else if 0 < y then π / 2
  else if y < 0 then -(π / 2)
  else 0

/-- Dot product of two 2-vectors, as computed by np.dot. -/
def dot2 (u v : Fin 2 → ℝ) : ℝ := u 0 * v 0 + u 1 * v 1

/-- Dot product of two 3-vectors, as computed by np.dot. -/
def dot3 (u v : Fin 3 → ℝ) : ℝ := u 0 * v 0 + u 1 * v 1 + u 2 * v 2

/-- Euclidean norm of a 2-vector, as computed by np.linalg.norm. -/
def norm2v (u : Fin 2 → ℝ) : ℝ := Real.sqrt (u 0 ^ 2 + u 1 ^ 2)

/-- Euclidean norm of a 3-vector, as computed by np.linalg.norm. -/
def norm3v (u : Fin 3 → ℝ) : ℝ := Real.sqrt (u 0 ^ 2 + u 1 ^ 2 + u 2 ^ 2)

/-- Cross product of 2-vectors as computed by np.cross (a scalar). -/
def cross2 (u v : Fin 2 → ℝ) : ℝ := u 0 * v 1 - u 1 * v 0

/-- Cross product of 3-vectors as computed by np.cross. -/
def cross3 (u v : Fin 3 → ℝ) : Fin 3 → ℝ :=
  ![u 1 * v 2 - u 2 * v 1, u 2 * v 0 - u 0 * v 2, u 0 * v 1 - u 1 * v 0]

/-- GeometryTools.calculateSignedAngleBetweenTwoVectors on 2-d inputs:
the acos angle, negated when the scalar cross product is negative. -/
def calculateSignedAngleBetweenTwoVectors2 (u v : Fin 2 → ℝ) : ℝ :=
  let angle := arccos (round4 (dot2 u v / (norm2v u * norm2v v)))
  if cross2 u v < 0 then -angle else angle

/-- GeometryTools.calculateSignedAngleBetweenTwoVectors on 3-d inputs.
The source guards the negation with the Python expression
(crossProduct less-than 0).any() less-than 0, which compares the boolean
result of any() against the integer zero; it is embedded literally as an
if-then-else integer compared with zero. -/
def calculateSignedAngleBetweenTwoVectors3 (u v : Fin 3 → ℝ) : ℝ :=
  let angle := arccos (round4 (dot3 u v / (norm3v u * norm3v v)))
  let anyCrossNeg : Prop := cross3 u v 0 < 0 ∨ cross3 u v 1 < 0 ∨ cross3 u v 2 < 0
  if (if anyCrossNeg then (1 : ℤ) else 0) < 0 then -angle else angle

/-- legForwardKinematics from kinematics.py: the 4x4 transform from leg base
to end effector. -/
def legForwardKinematics (q1 q2 q3 : ℝ) : Matrix (Fin 4) (Fin 4) ℝ :=
  Matrix.of
    ![![cos q1 * cos (q2 + q3), -(cos q1) * sin (q2 + q3), sin q1,
        cos q1 * (L1 + L2 * cos q2 + L3 * cos (q2 + q3))],
      ![cos (q2 + q3) * sin q1, -(sin q1) * sin (q2 + q3), -(cos q1),
        (L1 + L2 * cos q2 + L3 * cos (q2 + q3)) * sin q1],
      ![sin (q2 + q3), cos (q2 + q3), 0, L2 * sin q2 + L3 * sin (q2 + q3)],
      ![0, 0, 0, 1]]

/-- Position part of a 4x4 homogeneous transform: column 3, rows 0..2. -/
def tipOf (M : Matrix (Fin 4) (Fin 4) ℝ) : Fin 3 → ℝ := fun i => M i.castSucc 3

/-- legJacobi from kinematics.py: the analytic 3x3 Jacobian of the leg. -/
def legJacobi (q1 q2 q3 : ℝ) : Matrix (Fin 3) (Fin 3) ℝ :=
  Matrix.of
    ![![-(L1 + L2 * cos q2 + L3 * cos (q2 + q3)) * sin q1,
        -(cos q1) * (L2 * sin q2 + L3 * sin (q2 + q3)), -L3 * cos q1 * sin (q2 + q3)],
      ![cos q1 * (L1 + L2 * cos q2 + L3 * cos (q2 + q3)),
        -(sin q1) * (L2 * sin q2 + L3 * sin (q2 + q3)), -L3 * sin q1 * sin (q2 + q3)],
      ![0, L2 * cos q2 + L3 * cos (q2 + q3), L3 * cos (q2 + q3)]]

/-- Position of the second joint in the leg-base frame, from
legInverseKinematics. -/
def secondJointPosition (q1 : ℝ) : Fin 3 → ℝ := ![L1 * cos q1, L1 * sin q1, 0]

/-- First-joint angle computed by legInverseKinematics, with the sign flip of
(x, y) when x is negative. -/
def ikFirstJoint (p : Fin 3 → ℝ) : ℝ :=
  if p 0 < 0 then atan2 (-(p 1)) (-(p 0)) else atan2 (p 1) (p 0)

/-- Distance from the second joint to the end effector, from
legInverseKinematics. -/
def ikR (p : Fin 3 → ℝ) : ℝ :=
  let s := secondJointPosition (ikFirstJoint p)
  Real.sqrt ((p 0 - s 0) ^ 2 + (p 1 - s 1) ^ 2 + (p 2 - s 2) ^ 2)

/-- Law-of-cosines quotient that legInverseKinematics feeds to np.round and
then to math.acos. -/
def acosArgumentRaw (p : Fin 3 → ℝ) : ℝ :=
  ((ikR p) ^ 2 - L2 ^ 2 - L3 ^ 2) / (2 * L2 * L3)

/-- legInverseKinematics from kinematics.py.  math.acos raises ValueError
outside [-1, 1]; that outcome is embedded as none. -/
def legInverseKinematics (p : Fin 3 → ℝ) : Option (ℝ × ℝ × ℝ) :=
  let q1 := ikFirstJoint p
  let s := secondJointPosition q1
  let arg := round4 (acosArgumentRaw p)
  if -1 ≤ arg ∧ arg ≤ 1 then
    let q3 := -arccos arg
    let alpha := |atan2 (L3 * sin q3) (L2 + L3 * cos q3)|
    let xy :=
      if s 0 ≤ p 0 then Real.sqrt ((p 0 - s 0) ^ 2 + (p 1 - s 1) ^ 2)
      else -Real.sqrt ((p 0 - s 0) ^ 2 + (p 1 - s 1) ^ 2)
    let gamma := atan2 (p 2 - s 2) xy
    some (q1, alpha + gamma, q3)
  else none

/-- spider.BODY_RADIUS: radius of the spider platform in meters. -/
def BODY_RADIUS : ℝ := 0.15

/-- spider.ANGLE_BETWEEN_LEGS = np.radians(360 / NUMBER_OF_LEGS). -/
def ANGLE_BETWEEN_LEGS : ℝ := 360 / 5 * π / 180

/-- spider.CONSTRAINS[0]: minimal reachable radius of a leg. -/
def CONSTRAINS_MIN : ℝ := 0.15

/-- spider.CONSTRAINS[1]: maximal reachable radius of a leg. -/
def CONSTRAINS_MAX : ℝ := 0.45

/-- spider.CONSTRAINS[2] = np.radians(60): angular tolerance around the ideal
leg vector. -/
def CONSTRAINS_ANGLE : ℝ := 60 * π / 180

/-- spider.LEG_LENGTH_MAX_LIMIT. -/
def LEG_LENGTH_MAX_LIMIT : ℝ := 0.58

/-- Angle between a leg anchor direction and the spider x axis before the
reordering done in spider._getLegAnchorsInSpiderOrigin:
np.radians(90) - leg * ANGLE_BETWEEN_LEGS. -/
def preAnchorAngle (k : ℕ) : ℝ := 90 * π / 180 - k * ANGLE_BETWEEN_LEGS

/-- The reordering [a0, a4, a3, a2, a1] applied by
spider._getLegAnchorsInSpiderOrigin to match the physical leg order. -/
def anchorOrder : Fin 5 → ℕ := ![0, 4, 3, 2, 1]

/-- spider.LEG_ANCHORS: anchor positions on the platform, in spider origin. -/
def LEG_ANCHORS : Fin 5 → Fin 2 → ℝ := fun leg =>
  ![BODY_RADIUS * cos (preAnchorAngle (anchorOrder leg)),
    BODY_RADIUS * sin (preAnchorAngle (anchorOrder leg))]

/-- spider.IDEAL_LEG_VECTORS: unit radial direction of each leg. -/
def IDEAL_LEG_VECTORS : Fin 5 → Fin 2 → ℝ := fun leg =>
  ![cos (preAnchorAngle (anchorOrder leg)), sin (preAnchorAngle (anchorOrder leg))]

/-- spider.T_ANCHORS, referred to as spider.T_BASES by the path planner:
transform from spider base to a leg anchor. -/
def T_BASES : Fin 5 → Matrix (Fin 4) (Fin 4) ℝ := fun i =>
  let a := (i : ℕ) * ANGLE_BETWEEN_LEGS + π / 2
  Matrix.of
    ![![cos a, -(sin a), 0, LEG_ANCHORS i 0],
      ![sin a, cos a, 0, LEG_ANCHORS i 1],
      ![0, 0, 1, 0],
      ![0, 0, 0, 1]]

/-- Rotation about the z axis, as built inline in platformForwardKinematics. -/
def rotZ (phi : ℝ) : Matrix (Fin 3) (Fin 3) ℝ :=
  Matrix.of ![![cos phi, -(sin phi), 0], ![sin phi, cos phi, 0], ![0, 0, 1]]

/-- The matrix called roll in MatrixCalculator.xyzRpyToMatrix (built from
rpy[1]). -/
def rollMat (r : ℝ) : Matrix (Fin 3) (Fin 3) ℝ :=
  Matrix.of ![![cos r, 0, sin r], ![0, 1, 0], ![-(sin r), 0, cos r]]

/-- The matrix called pitch in MatrixCalculator.xyzRpyToMatrix (built from
rpy[0]). -/
def pitchMat (p : ℝ) : Matrix (Fin 3) (Fin 3) ℝ :=
  Matrix.of ![![1, 0, 0], ![0, cos p, -(sin p)], ![0, sin p, cos p]]

/-- MatrixCalculator.xyzRpyToMatrix on a 6-component pose. -/
def xyzrpyToMatrix (pose : Fin 6 → ℝ) : Matrix (Fin 4) (Fin 4) ℝ :=
  let R := pitchMat (pose 3) * (rollMat (pose 4) * rotZ (pose 5))
  Matrix.of
    ![![R 0 0, R 0 1, R 0 2, pose 0],
      ![R 1 0, R 1 1, R 1 2, pose 1],
      ![R 2 0, R 2 1, R 2 2, pose 2],
      ![0, 0, 0, 1]]

/-- MatrixCalculator.xyzRpyToMatrix on a 4-component pose (x, y, z, yaw),
which the source pads with zero roll and pitch. -/
def xyzyToMatrix (pose : Fin 4 → ℝ) : Matrix (Fin 4) (Fin 4) ℝ :=
  xyzrpyToMatrix ![pose 0, pose 1, pose 2, 0, 0, pose 3]

/-- spiderBaseToLegTipForwardKinematics from kinematics.py. -/
def spiderBaseToLegTipForwardKinematics (legId : ℕ) (q : Fin 3 → ℝ) :
    Matrix (Fin 4) (Fin 4) ℝ :=
  let qb := legId * ANGLE_BETWEEN_LEGS + π / 2
  Matrix.of
    ![![cos (q 1 + q 2) * cos (q 0 + qb), -(cos (q 0 + qb)) * sin (q 1 + q 2),
        sin (q 0 + qb),
        BODY_RADIUS * cos qb + (L1 + L2 * cos (q 1) + L3 * cos (q 1 + q 2)) * cos (q 0 + qb)],
      ![cos (q 1 + q 2) * sin (q 0 + qb), -(sin (q 1 + q 2)) * sin (q 0 + qb),
        -(cos (q 0 + qb)),
        BODY_RADIUS * sin qb + (L1 + L2 * cos (q 1) + L3 * cos (q 1 + q 2)) * sin (q 0 + qb)],
      ![sin (q 1 + q 2), cos (q 1 + q 2), 0, L2 * sin (q 1) + L3 * sin (q 1 + q 2)],
      ![0, 0, 0, 1]]

/-- Body of platformForwardKinematics from kinematics.py once the three-legs
arity check has passed: wall-plane basis from sign-corrected cross products,
alignment with the global frame by the signed angle of the first two
footholds, and the body position as the mean of the three leg-implied
positions. -/
def platformForwardKinematicsCore (posG : Fin 3 → Fin 3 → ℝ)
    (poses : Fin 3 → Matrix (Fin 4) (Fin 4) ℝ) : Fin 6 → ℝ :=
  let t : Fin 3 → Fin 3 → ℝ := fun k => tipOf (poses k)
  let l12 : Fin 3 → ℝ := fun i => t 1 i - t 0 i
  let l13 : Fin 3 → ℝ := fun i => t 2 i - t 0 i
  let l23 : Fin 3 → ℝ := fun i => t 2 i - t 1 i
  let n1 := if 0 ≤ cross3 l12 l13 2 then cross3 l12 l13 else cross3 l13 l12
  let n2 := if 0 ≤ cross3 l12 l23 2 then cross3 l12 l23 else cross3 l23 l12
  let n3 := if 0 ≤ cross3 (fun i => -(l13 i)) (fun i => -(l23 i)) 2
    then cross3 (fun i => -(l13 i)) (fun i => -(l23 i))
    else cross3 (fun i => -(l23 i)) (fun i => -(l13 i))
  let n : Fin 3 → ℝ := fun i => (n1 i + n2 i + n3 i) / 3
  let ez : Fin 3 → ℝ := fun i => n i / norm3v n
  let ex : Fin 3 → ℝ := fun i => l12 i / norm3v l12
  let ey := cross3 ez ex
  let P : Matrix (Fin 3) (Fin 3) ℝ := Matrix.of ![ex, ey, ez]
  let p12 : Fin 2 → ℝ := ![posG 1 0 - posG 0 0, posG 1 1 - posG 0 1]
  let phi := calculateSignedAngleBetweenTwoVectors2 p12 ![1, 0]
  let Pg3 := (rotZ phi)⁻¹ * P
  let positions : Fin 3 → Fin 3 → ℝ := fun k i =>
    Pg3.mulVec (t k) i + Pg3.mulVec (fun j => -(posG k j)) i
  let trans : Fin 3 → ℝ := fun i => (positions 0 i + positions 1 i + positions 2 i) / 3
  let Pg4 : Matrix (Fin 4) (Fin 4) ℝ :=
    Matrix.of
      ![![Pg3 0 0, Pg3 0 1, Pg3 0 2, trans 0],
        ![Pg3 1 0, Pg3 1 1, Pg3 1 2, trans 1],
        ![Pg3 2 0, Pg3 2 1, Pg3 2 2, trans 2],
        ![0, 0, 0, 1]]
  let pose := Pg4⁻¹
  let yaw := atan2 (Pg4 1 0) (Pg4 0 0)
  let roll := atan2 (-(Pg4 2 0)) (Real.sqrt ((Pg4 2 1) ^ 2 + (Pg4 2 2) ^ 2))
  let pitch := atan2 (Pg4 2 1) (Pg4 2 2)
  ![pose 0 3, pose 1 3, pose 2 3, roll, pitch, yaw]

/-- platformForwardKinematics from kinematics.py, including the arity check:
the source prints a message and returns False unless it is given exactly
three legs; the False return is embedded as none. -/
def platformForwardKinematics (legsIds : List ℕ) (legsGlobalPositions : List (Fin 3 → ℝ))
    (legsLocalPoses : List (Matrix (Fin 4) (Fin 4) ℝ)) : Option (Fin 6 → ℝ) :=
  if legsIds.length = 3 ∧ legsGlobalPositions.length = 3 ∧ legsLocalPoses.length = 3 then
    some (platformForwardKinematicsCore
      (fun k => legsGlobalPositions.getD (k : ℕ) (fun _ => 0))
      (fun k => legsLocalPoses.getD (k : ℕ) 0))
  else none

/-- Ordered pairs from a list, as itertools.combinations(l, 2). -/
def combos2 {α : Type} : List α → List (α × α)
  | [] => []
  | x :: xs => (xs.map fun y => (x, y)) ++ combos2 xs

/-- Ordered triples from a list, as itertools.combinations(l, 3). -/
def combos3 {α : Type} : List α → List (α × α × α)
  | [] => []
  | x :: xs => ((combos2 xs).map fun p => (x, p.1, p.2)) ++ combos3 xs

/-- Position, by leg id, looked up the way getSpiderPose does it:
legsGlobalPositions[legsIds.index(leg)]. -/
def posOfLeg (legsIds : List ℕ) (pos : List (Fin 3 → ℝ)) (leg : ℕ) : Fin 3 → ℝ :=
  pos.getD (legsIds.indexOf leg) (fun _ => 0)

/-- The skip test of getSpiderPose for one combination of three legs:
not (np.diff(x-column).any() and np.diff(y-column).any()), that is, the three
x values are all equal or the three y values are all equal. -/
def skipCombo (legsIds : List ℕ) (pos : List (Fin 3 → ℝ)) (c : ℕ × ℕ × ℕ) : Prop :=
  let P := posOfLeg legsIds pos
  (P c.1 0 = P c.2.1 0 ∧ P c.2.1 0 = P c.2.2 0) ∨
  (P c.1 1 = P c.2.1 1 ∧ P c.2.1 1 = P c.2.2 1)

/-- Candidate pose computed by getSpiderPose for one combination of three
legs: platform forward kinematics on the legs combined tip poses. -/
def comboPose (legsIds : List ℕ) (pos : List (Fin 3 → ℝ)) (qA : ℕ → Fin 3 → ℝ)
    (c : ℕ × ℕ × ℕ) : Fin 6 → ℝ :=
  platformForwardKinematicsCore
    ![posOfLeg legsIds pos c.1, posOfLeg legsIds pos c.2.1, posOfLeg legsIds pos c.2.2]
    ![spiderBaseToLegTipForwardKinematics c.1 (qA c.1),
      spiderBaseToLegTipForwardKinematics c.2.1 (qA c.2.1),
      spiderBaseToLegTipForwardKinematics c.2.2 (qA c.2.2)]

/-- The accumulation loop of getSpiderPose over leg combinations, skipping
the combinations caught by the skip test. -/
def gatherPoses (legsIds : List ℕ) (pos : List (Fin 3 → ℝ)) (qA : ℕ → Fin 3 → ℝ) :
    List (ℕ × ℕ × ℕ) → List (Fin 6 → ℝ)
  | [] => []
  | c :: rest =>
    if skipCombo legsIds pos c then gatherPoses legsIds pos qA rest
    else comboPose legsIds pos qA c :: gatherPoses legsIds pos qA rest

/-- getSpiderPose from kinematics.py: mean of the candidate poses over all
three-leg combinations that survive the skip test. -/
def getSpiderPose (legsIds : List ℕ) (pos : List (Fin 3 → ℝ)) (qA : ℕ → Fin 3 → ℝ) :
    Fin 6 → ℝ :=
  let poses := gatherPoses legsIds pos qA (combos3 legsIds)
  fun j => ((poses.map fun v => v j).sum) / poses.length

/-- pathplanner.MAX_LINEAR_STEP.  The source wraps the definition in a
module-level @property decorator, so the global name is bound to a property
object rather than to a number, and any arithmetic with it raises TypeError.
The embedding records that absence of a numeric value as none; the getter
body would return 0.06. -/
def MAX_LINEAR_STEP : Option ℝ := none

/-- np.linspace(s, g, n) on 4-component poses. -/
def linspace (s g : Fin 4 → ℝ) (n : ℕ) : List (Fin 4 → ℝ) :=
  (List.range n).map fun (i : ℕ) => fun j => s j + (i : ℝ) * (g j - s j) / ((n : ℝ) - 1)

/-- Horizontal distance of two poses: the norm of the difference of their
first two components. -/
def xyDist (a b : Fin 4 → ℝ) : ℝ := norm2v ![a 0 - b 0, a 1 - b 1]

/-- calculate_spider_body_path from pathplanner.py.  When start and goal
coincide in x and y the function returns just the start pose.  Otherwise it
divides the horizontal distance by MAX_LINEAR_STEP; since that name holds a
property object, not a number, the division raises TypeError, embedded as
none.  The some arm of the match keeps the computation the source would
perform were a numeric step bound: start pose, then every linspace sample
that differs from the start pose. -/
def calculate_spider_body_path (s g : Fin 4 → ℝ) : Option (List (Fin 4 → ℝ)) :=
  let d := norm2v ![g 0 - s 0, g 1 - s 1]
  if d ≠ 0 then
    match MAX_LINEAR_STEP with
    | none => none
    | some step =>
      let n := ⌈d / step⌉₊ + 1
      some (s :: (linspace s g n).filter fun p => decide (p ≠ s))
  else some [s]

/-- Leg moving order of create_walking_instructions as a function of the
travel direction. -/
def legsMovingOrderOf (d : ℝ) : List (Fin 5) :=
  if d = π then [0, 1, 4, 2, 3]
  else if d = 0 then [2, 3, 1, 4, 0]
  else if 0 ≤ d then [4, 3, 0, 2, 1]
  else [1, 2, 0, 3, 4]

/-- One pins instruction: rows (legId, pin position) in the given order,
as built by np.c_. -/
def instructionFor (order : List (Fin 5)) (pins : Fin 5 → Fin 3 → ℝ) :
    List (Fin 5 × (Fin 3 → ℝ)) :=
  order.map fun l => (l, pins l)

/-- The emission loop of create_walking_instructions from index 1 on:
emit at an index when the selected pins differ from the previous step or the
index is the last one. -/
def walkEmit (path : List (Fin 4 → ℝ)) (order : List (Fin 5)) (lastIdx : ℕ) :
    ℕ → List (Fin 5 → Fin 3 → ℝ) → (Fin 5 → Fin 3 → ℝ) →
    List (Fin 4 → ℝ) × List (List (Fin 5 × (Fin 3 → ℝ)))
  | _, [], _ => ([], [])
  | idx, pins :: rest, prev =>
    let tail := walkEmit path order lastIdx (idx + 1) rest pins
    if pins ≠ prev ∨ idx = lastIdx then
      ((path.getD idx fun _ => 0) :: tail.1, instructionFor order pins :: tail.2)
    else tail

/-- create_walking_instructions from pathplanner.py, parameterized by the pin
selection method as in the source.  The TypeError raised inside
calculate_spider_body_path propagates, embedded as none. -/
def create_walking_instructions (s g : Fin 4 → ℝ)
    (pins_selection : List (Fin 4 → ℝ) → List (Fin 5 → Fin 3 → ℝ)) :
    Option (List (Fin 4 → ℝ) × List (List (Fin 5 × (Fin 3 → ℝ)))) :=
  match calculate_spider_body_path s g with
  | none => none
  | some path =>
    let selected := pins_selection path
    let d := atan2 (g 0 - s 0) (g 1 - s 1)
    let order := legsMovingOrderOf d
    let pins0 := selected.getD 0 fun _ _ => 0
    let tail := walkEmit path order (selected.length - 1) 1 selected.tail pins0
    some (s :: tail.1, instructionFor order pins0 :: tail.2)

/-- Indices at which create_walking_instructions emits an instruction beyond
the initial one: index nonzero, and the pins set changed or the index is the
final one. -/
def emittedIdxs (selected : List (Fin 5 → Fin 3 → ℝ)) : List ℕ :=
  (List.range selected.length).filter fun idx =>
    decide (idx ≠ 0) &&
    (decide (selected.getD idx (fun _ _ => 0) ≠ selected.getD (idx - 1) (fun _ _ => 0)) ||
     decide (idx = selected.length - 1))

/-- Emission condition of the loop of create_walking_instructions, indexed
relative to the list it still has to process: the pins at offset k differ
from the preceding pins (the explicit previous value at offset zero) or the
absolute index has reached the final one. -/
def emitCond (rest : List (Fin 5 → Fin 3 → ℝ)) (prev : Fin 5 → Fin 3 → ℝ)
    (lastIdx idx k : ℕ) : Bool :=
  decide (rest.getD k (fun _ _ => 0) ≠
    (if k = 0 then prev else rest.getD (k - 1) fun _ _ => 0)) ||
  decide (idx + k = lastIdx)

/-- The rotated ideal leg vector of the pin filtering loop:
first two components of T_GS[:3,:3] applied to the ideal vector padded with
a zero. -/
def rotatedIdealVector (T_GS : Matrix (Fin 4) (Fin 4) ℝ) (ideal : Fin 2 → ℝ) :
    Fin 2 → ℝ :=
  let v3 : Fin 3 → ℝ := ![ideal 0, ideal 1, 0]
  ![T_GS 0 0 * v3 0 + T_GS 0 1 * v3 1 + T_GS 0 2 * v3 2,
    T_GS 1 0 * v3 0 + T_GS 1 1 * v3 1 + T_GS 1 2 * v3 2]

/-- Candidate filter of calculate_selected_pins_over_max_y_distance, for one
leg: keep a pin when its horizontal distance from the leg base is strictly
inside the reachable band and its angle from the rotated ideal leg vector is
strictly below the angular tolerance. -/
def potentialPinsForLeg (pins : List (Fin 3 → ℝ)) (T_GS : Matrix (Fin 4) (Fin 4) ℝ)
    (ideal : Fin 2 → ℝ) (legBase : Fin 3 → ℝ) : List (Fin 3 → ℝ) :=
  pins.filter fun pin =>
    decide (CONSTRAINS_MIN < norm2v ![legBase 0 - pin 0, legBase 1 - pin 1] ∧
            norm2v ![legBase 0 - pin 0, legBase 1 - pin 1] < CONSTRAINS_MAX) &&
    decide (|calculateSignedAngleBetweenTwoVectors2 (rotatedIdealVector T_GS ideal)
              ![pin 0 - legBase 0, pin 1 - legBase 1]| < CONSTRAINS_ANGLE)

/-- Leg lengths implied by a candidate start pose, as computed inside the
correction loop of modified_walking_instructions. -/
def legLengthsAt (startLegs : Fin 5 → Fin 3 → ℝ) (pose : Fin 4 → ℝ) : Fin 5 → ℝ :=
  fun leg =>
    let M := xyzyToMatrix pose * T_BASES leg
    norm3v fun i => startLegs leg i - M i.castSucc 3

/-- One nudge of the start pose: y decreases when leg 2 or leg 3 is
over-extended, otherwise y increases. -/
def adjustPose (pose : Fin 4 → ℝ) (lengths : Fin 5 → ℝ) : Fin 4 → ℝ :=
  if LEG_LENGTH_MAX_LIMIT < lengths 2 ∨ LEG_LENGTH_MAX_LIMIT < lengths 3 then
    Function.update pose 1 (pose 1 - 0.005)
  else Function.update pose 1 (pose 1 + 0.005)

/-- The while-true correction loop of modified_walking_instructions, with an
explicit fuel so that non-termination would be observable as the outer none.
The loop exits when no leg is over-extended or the counter passed 100; on
exit it returns none (the source returns False) when some leg length still
exceeds 0.6, and the corrected pose otherwise. -/
def startPoseCorrectionLoop (startLegs : Fin 5 → Fin 3 → ℝ) :
    ℕ → (Fin 4 → ℝ) → ℕ → Option (Option (Fin 4 → ℝ))
  | 0, _, _ => none
  | fuel + 1, pose, counter =>
    let lengths := legLengthsAt startLegs pose
    if (¬ ∃ leg, LEG_LENGTH_MAX_LIMIT < lengths leg) ∨ 100 < counter then
      some (if ∃ leg, (0.6 : ℝ) < lengths leg then none else some pose)
    else startPoseCorrectionLoop startLegs fuel (adjustPose pose lengths) (counter + 1)

/-- Distance from the second joint to the leg tip as a function of the third
joint angle, by the law of cosines; this is the leg radius checked against
spider.CONSTRAINS. -/
def legRadius (q3 : ℝ) : ℝ := Real.sqrt (L2 ^ 2 + L3 ^ 2 + 2 * L2 * L3 * cos q3)

/-- Radial extension of the leg: distance factor of the tip from the first
joint axis. -/
def radialExtension (q2 q3 : ℝ) : ℝ := L1 + L2 * cos q2 + L3 * cos (q2 + q3)

/-- The elbow offset angle computed by legInverseKinematics before taking
its absolute value. -/
def betaAngle (q3 : ℝ) : ℝ := atan2 (L3 * sin q3) (L2 + L3 * cos q3)

/-- Joint and workspace limits used to state the inverse-forward round trip:
first joint within the angular constraint, elbow-down third joint, leg
radius strictly inside the reachable band of spider.CONSTRAINS, positive
radial extension, and a second joint keeping the elbow angle sum in the
principal range. -/
def withinWorkspace (q1 q2 q3 : ℝ) : Prop :=
  |q1| < CONSTRAINS_ANGLE ∧ -π ≤ q3 ∧ q3 ≤ 0 ∧
  CONSTRAINS_MIN < legRadius q3 ∧ legRadius q3 < CONSTRAINS_MAX ∧
  0 < radialExtension q2 q3 ∧
  -π < q2 + betaAngle q3 ∧ q2 + betaAngle q3 ≤ π

/-! ## Helper lemmas -/

lemma atan2_of_pos {y x : ℝ} (hx : 0 < x) : atan2 y x = arctan (y / x) := if_pos hx

lemma atan2_rot {m θ : ℝ} (hm : 0 < m) (h1 : -π < θ) (h2 : θ ≤ π) :
    atan2 (m * sin θ) (m * cos θ) = θ := by
  rcases lt_trichotomy (cos θ) 0 with hc | hc | hc
  · have hxneg : m * cos θ < 0 := mul_neg_of_pos_of_neg hm hc
    rcases le_or_lt 0 (sin θ) with hs | hs
    · have hθgt : π / 2 < θ := by
        by_contra hθ
        push_neg at hθ
        have h0 : 0 ≤ θ := by
          by_contra h0
          push_neg at h0
          exact absurd (Real.sin_neg_of_neg_of_neg_pi_lt h0 h1) (not_lt.mpr hs)
        have := Real.cos_nonneg_of_mem_Icc (Set.mem_Icc.mpr ⟨by linarith [Real.pi_pos], hθ⟩)
        linarith
      have hyx : m * sin θ / (m * cos θ) = tan θ := by
        rw [mul_div_mul_left _ _ (ne_of_gt hm), tan_eq_sin_div_cos]
      rw [atan2, if_neg (by linarith), if_pos hxneg,
        if_pos (mul_nonneg hm.le hs), hyx, ← Real.tan_sub_pi,
        arctan_tan (by linarith [Real.pi_pos]) (by linarith [Real.pi_pos])]
      ring
    · have hθlt : θ < -(π / 2) := by
        by_contra hθ
        push_neg at hθ
        have hθ0 : θ < 0 := by
          by_contra h0
          push_neg at h0
          have := Real.sin_nonneg_of_nonneg_of_le_pi h0 h2
          linarith
        have := Real.cos_nonneg_of_mem_Icc (Set.mem_Icc.mpr ⟨hθ, by linarith [Real.pi_pos]⟩)
        linarith
      have hyx : m * sin θ / (m * cos θ) = tan θ := by
        rw [mul_div_mul_left _ _ (ne_of_gt hm), tan_eq_sin_div_cos]
      rw [atan2, if_neg (by linarith), if_pos hxneg,
        if_neg (by push_neg; exact mul_neg_of_pos_of_neg hm hs), hyx, ← Real.tan_add_pi,
        arctan_tan (by linarith [Real.pi_pos]) (by linarith [Real.pi_pos])]
      ring
  · obtain ⟨n, hn⟩ := Real.cos_eq_zero_iff.mp hc
    have hπ := Real.pi_pos
    have hn01 : n = 0 ∨ n = -1 := by
      rcases lt_trichotomy n 0 with h | h | h
      · right
        by_contra hne
        have hle : (n : ℝ) ≤ -2 := by
          have : n ≤ -2 := by omega
          exact_mod_cast this
        nlinarith
      · left; exact h
      · exfalso
        have hge : (1 : ℝ) ≤ (n : ℝ) := by exact_mod_cast h
        nlinarith
    rcases hn01 with h | h
    · subst h
      push_cast at hn
      have hθ : θ = π / 2 := by linarith
      subst hθ
      rw [Real.sin_pi_div_two, Real.cos_pi_div_two, mul_zero, mul_one, atan2]
      rw [if_neg (lt_irrefl 0), if_neg (lt_irrefl 0), if_pos hm]
    · subst h
      push_cast at hn
      have hθ : θ = -(π / 2) := by linarith
      subst hθ
      rw [Real.cos_neg, Real.sin_neg, Real.sin_pi_div_two, Real.cos_pi_div_two,
        mul_zero, atan2]
      rw [if_neg (lt_irrefl 0), if_neg (lt_irrefl 0)]
      rw [if_neg (by push_neg; nlinarith), if_pos (by nlinarith)]
  · have hθ1 : -(π / 2) < θ := by
      by_contra hθ
      push_neg at hθ
      have : cos (-θ) ≤ 0 :=
        Real.cos_nonpos_of_pi_div_two_le_of_le (by linarith) (by linarith [Real.pi_pos])
      rw [Real.cos_neg] at this
      linarith
    have hθ2 : θ < π / 2 := by
      by_contra hθ
      push_neg at hθ
      have : cos θ ≤ 0 :=
        Real.cos_nonpos_of_pi_div_two_le_of_le hθ (by linarith [Real.pi_pos])
      linarith
    rw [atan2_of_pos (mul_pos hm hc), mul_div_mul_left _ _ (ne_of_gt hm),
      ← tan_eq_sin_div_cos, arctan_tan hθ1 hθ2]

lemma round4_zero : round4 0 = 0 := by
  unfold round4 roundHalfEven
  norm_num

lemma signedAngle3_eq_arccos (u v : Fin 3 → ℝ) :
    calculateSignedAngleBetweenTwoVectors3 u v =
      arccos (round4 (dot3 u v / (norm3v u * norm3v v))) := by
  have hfalse : ¬((if (cross3 u v 0 < 0 ∨ cross3 u v 1 < 0 ∨ cross3 u v 2 < 0)
      then (1 : ℤ) else 0) < 0) := by
    split_ifs <;> norm_num
  simp only [calculateSignedAngleBetweenTwoVectors3]
  rw [if_neg hfalse]

/-! ## Claim theorems -/

/-- C10: for every pair of 3-dimensional input vectors the signed-angle
function returns the plain, nonnegative acos angle in the range zero to pi:
the negation branch compares a boolean against zero and is unreachable.
Only 2-dimensional inputs can produce a negative angle, witnessed here by a
concrete pair. -/
theorem signedAngle3d_always_nonneg :
    (∀ u v : Fin 3 → ℝ,
      calculateSignedAngleBetweenTwoVectors3 u v =
          arccos (round4 (dot3 u v / (norm3v u * norm3v v))) ∧
        0 ≤ calculateSignedAngleBetweenTwoVectors3 u v ∧
        calculateSignedAngleBetweenTwoVectors3 u v ≤ π) ∧
    ∃ u v : Fin 2 → ℝ, calculateSignedAngleBetweenTwoVectors2 u v < 0 := by
  constructor
  · intro u v
    refine ⟨signedAngle3_eq_arccos u v, ?_, ?_⟩
    · rw [signedAngle3_eq_arccos]; exact Real.arccos_nonneg _
    · rw [signedAngle3_eq_arccos]; exact Real.arccos_le_pi _
  · refine ⟨![1, 0], ![0, -1], ?_⟩
    have hd : dot2 ![(1 : ℝ), 0] ![0, -1] = 0 := by
      simp [dot2]
    have hn1 : norm2v ![(1 : ℝ), 0] = 1 := by
      simp [norm2v]
    have hn2 : norm2v ![(0 : ℝ), -1] = 1 := by
      simp [norm2v]
    have hc : cross2 ![(1 : ℝ), 0] ![0, -1] = -1 := by
      simp [cross2]
    simp only [calculateSignedAngleBetweenTwoVectors2, hd, hn1, hn2, hc]
    rw [if_pos (by norm_num)]
    simp only [mul_one, zero_div, round4_zero, Real.arccos_zero]
    linarith [Real.pi_pos]

/-- C3: platformForwardKinematics returns the sentinel failure value exactly
when not given three legs in each of its three list arguments, and returns a
numeric six-component pose whenever all three lists have length three. -/
theorem platformForwardKinematics_arity :
    ∀ (ids : List ℕ) (pos : List (Fin 3 → ℝ)) (poses : List (Matrix (Fin 4) (Fin 4) ℝ)),
      (platformForwardKinematics ids pos poses = none ↔
        ids.length ≠ 3 ∨ pos.length ≠ 3 ∨ poses.length ≠ 3) ∧
      (ids.length = 3 → pos.length = 3 → poses.length = 3 →
        ∃ v : Fin 6 → ℝ, platformForwardKinematics ids pos poses = some v) := by
  intro ids pos poses
  constructor
  · unfold platformForwardKinematics
    split_ifs with h
    · simp only [reduceCtorEq, false_iff]
      push_neg
      exact ⟨h.1, h.2.1, h.2.2⟩
    · simp only [true_iff]
      tauto
  · intro h1 h2 h3
    unfold platformForwardKinematics
    rw [if_pos ⟨h1, h2, h3⟩]
    exact ⟨_, rfl⟩

/-- Witness for C3 at a concrete three-leg input. -/
theorem platformForwardKinematics_arity_witness :
    ∃ v : Fin 6 → ℝ,
      platformForwardKinematics [0, 1, 2]
        [fun _ => 0, fun _ => 0, fun _ => 0] [1, 1, 1] = some v :=
  (platformForwardKinematics_arity [0, 1, 2]
    [fun _ => 0, fun _ => 0, fun _ => 0] [1, 1, 1]).2 rfl rfl rfl

/-- C9: the start-pose correction loop of modified_walking_instructions
terminates on every input within 102 iterations: run with fuel 102 it always
reaches the exit branch and returns a result, either a corrected pose or the
failure value (embedded none) when a leg length above 0.6 remains. -/
theorem startPoseCorrectionLoop_terminates :
    ∀ (startLegs : Fin 5 → Fin 3 → ℝ) (pose : Fin 4 → ℝ),
      ∃ r : Option (Fin 4 → ℝ), startPoseCorrectionLoop startLegs 102 pose 0 = some r := by
  have key : ∀ (startLegs : Fin 5 → Fin 3 → ℝ) (fuel counter : ℕ) (pose : Fin 4 → ℝ),
      101 - counter < fuel → (startPoseCorrectionLoop startLegs fuel pose counter).isSome := by
    intro startLegs fuel
    induction fuel with
    | zero => intro counter pose h; exact absurd h (Nat.not_lt_zero _)
    | succ f ih =>
      intro counter pose h
      rw [startPoseCorrectionLoop]
      split_ifs with hexit h06
      · simp
      · simp
      · push_neg at hexit
        have hc : counter ≤ 100 := by omega
        refine ih (counter + 1) _ ?_
        omega
  intro startLegs pose
  exact Option.isSome_iff_exists.mp (key startLegs 102 0 pose (by omega))

lemma sqrt_eval {x c : ℝ} (hc : 0 ≤ c) (h : x = c ^ 2) : Real.sqrt x = c := by
  rw [h, Real.sqrt_sq hc]

/-- C5 (corrected): the per-leg candidate filter keeps a pin exactly when its
horizontal distance from the leg anchor is strictly inside the reachable
band and its angle from the rotated ideal leg vector is strictly below the
tolerance; in particular a pin at exactly the maximum radius, or beyond, or
at an angle at or past the tolerance, is excluded. -/
theorem pinFilter_strict_band :
    ∀ (pins : List (Fin 3 → ℝ)) (T : Matrix (Fin 4) (Fin 4) ℝ)
      (ideal : Fin 2 → ℝ) (base pin : Fin 3 → ℝ),
      (pin ∈ potentialPinsForLeg pins T ideal base ↔
        pin ∈ pins ∧
        (CONSTRAINS_MIN < norm2v ![base 0 - pin 0, base 1 - pin 1] ∧
          norm2v ![base 0 - pin 0, base 1 - pin 1] < CONSTRAINS_MAX) ∧
        |calculateSignedAngleBetweenTwoVectors2 (rotatedIdealVector T ideal)
            ![pin 0 - base 0, pin 1 - base 1]| < CONSTRAINS_ANGLE) ∧
      (CONSTRAINS_MAX ≤ norm2v ![base 0 - pin 0, base 1 - pin 1] →
        pin ∉ potentialPinsForLeg pins T ideal base) ∧
      (CONSTRAINS_ANGLE ≤ |calculateSignedAngleBetweenTwoVectors2 (rotatedIdealVector T ideal)
          ![pin 0 - base 0, pin 1 - base 1]| →
        pin ∉ potentialPinsForLeg pins T ideal base) := by
  intro pins T ideal base pin
  have hmem : pin ∈ potentialPinsForLeg pins T ideal base ↔
      pin ∈ pins ∧
      (CONSTRAINS_MIN < norm2v ![base 0 - pin 0, base 1 - pin 1] ∧
        norm2v ![base 0 - pin 0, base 1 - pin 1] < CONSTRAINS_MAX) ∧
      |calculateSignedAngleBetweenTwoVectors2 (rotatedIdealVector T ideal)
          ![pin 0 - base 0, pin 1 - base 1]| < CONSTRAINS_ANGLE := by
    unfold potentialPinsForLeg
    simp [List.mem_filter, Bool.and_eq_true, decide_eq_true_eq]
  refine ⟨hmem, ?_, ?_⟩
  · intro hge hmem2
    have := (hmem.mp hmem2).2.1.2
    linarith
  · intro hge hmem2
    have := (hmem.mp hmem2).2.2
    linarith

/-- Witness for C5 at a concrete pin one centimeter beyond the maximum
radius: it is excluded. -/
theorem pinFilter_strict_band_witness :
    CONSTRAINS_MAX ≤ norm2v ![(![0, 0, 0] : Fin 3 → ℝ) 0 - (![0, 0.46, 0] : Fin 3 → ℝ) 0,
        (![0, 0, 0] : Fin 3 → ℝ) 1 - (![0, 0.46, 0] : Fin 3 → ℝ) 1] ∧
      (![0, 0.46, 0] : Fin 3 → ℝ) ∉
        potentialPinsForLeg [![0, 0.46, 0]] 1 ![0, 1] ![0, 0, 0] := by
  have hn : norm2v ![(![0, 0, 0] : Fin 3 → ℝ) 0 - (![0, 0.46, 0] : Fin 3 → ℝ) 0,
      (![0, 0, 0] : Fin 3 → ℝ) 1 - (![0, 0.46, 0] : Fin 3 → ℝ) 1] = 0.46 := by
    unfold norm2v
    simp only [Matrix.cons_val_zero, Matrix.cons_val_one, Matrix.head_cons]
    exact sqrt_eval (by norm_num) (by norm_num)
  have hge : CONSTRAINS_MAX ≤ norm2v ![(![0, 0, 0] : Fin 3 → ℝ) 0 - (![0, 0.46, 0] : Fin 3 → ℝ) 0,
      (![0, 0, 0] : Fin 3 → ℝ) 1 - (![0, 0.46, 0] : Fin 3 → ℝ) 1] := by
    rw [hn]; unfold CONSTRAINS_MAX; norm_num
  exact ⟨hge, (pinFilter_strict_band [![0, 0.46, 0]] 1 ![0, 1] ![0, 0, 0] ![0, 0.46, 0]).2.1 hge⟩

/-- Counterexample to C5 as stated: a candidate pin at exactly the maximum
reachable radius, with an in-tolerance angle, is excluded from the
candidates, not kept. -/
theorem pinFilter_at_max_radius_excluded :
    norm2v ![(![0, 0, 0] : Fin 3 → ℝ) 0 - (![0, 0.45, 0] : Fin 3 → ℝ) 0,
        (![0, 0, 0] : Fin 3 → ℝ) 1 - (![0, 0.45, 0] : Fin 3 → ℝ) 1] = CONSTRAINS_MAX ∧
      potentialPinsForLeg [![0, 0.45, 0]] 1 ![0, 1] ![0, 0, 0] = [] := by
  have hn : norm2v ![(![0, 0, 0] : Fin 3 → ℝ) 0 - (![0, 0.45, 0] : Fin 3 → ℝ) 0,
      (![0, 0, 0] : Fin 3 → ℝ) 1 - (![0, 0.45, 0] : Fin 3 → ℝ) 1] = 0.45 := by
    unfold norm2v
    simp only [Matrix.cons_val_zero, Matrix.cons_val_one, Matrix.head_cons]
    exact sqrt_eval (by norm_num) (by norm_num)
  constructor
  · rw [hn]; unfold CONSTRAINS_MAX; norm_num
  · have hnot : ¬(CONSTRAINS_MIN <
        norm2v ![(![0, 0, 0] : Fin 3 → ℝ) 0 - (![0, 0.45, 0] : Fin 3 → ℝ) 0,
          (![0, 0, 0] : Fin 3 → ℝ) 1 - (![0, 0.45, 0] : Fin 3 → ℝ) 1] ∧
        norm2v ![(![0, 0, 0] : Fin 3 → ℝ) 0 - (![0, 0.45, 0] : Fin 3 → ℝ) 0,
          (![0, 0, 0] : Fin 3 → ℝ) 1 - (![0, 0.45, 0] : Fin 3 → ℝ) 1] < CONSTRAINS_MAX) := by
      rw [hn]
      unfold CONSTRAINS_MAX
      norm_num
    unfold potentialPinsForLeg
    simp only [List.filter, decide_eq_false hnot, Bool.false_and]

lemma instructionFor_fst (order : List (Fin 5)) (pins : Fin 5 → Fin 3 → ℝ) :
    (instructionFor order pins).map Prod.fst = order := by
  unfold instructionFor
  rw [List.map_map]
  have h : (Prod.fst ∘ fun l : Fin 5 => (l, pins l)) = id := funext fun _ => rfl
  rw [h, List.map_id]

lemma emitCond_succ (pins : Fin 5 → Fin 3 → ℝ) (rest : List (Fin 5 → Fin 3 → ℝ))
    (prev : Fin 5 → Fin 3 → ℝ) (lastIdx idx k : ℕ) :
    emitCond (pins :: rest) prev lastIdx idx (k + 1) = emitCond rest pins lastIdx (idx + 1) k := by
  unfold emitCond
  cases k with
  | zero => norm_num
  | succ j =>
    have harith : idx + (j + 1 + 1) = idx + 1 + (j + 1) := by omega
    simp [harith]

lemma walkEmit_eq (path : List (Fin 4 → ℝ)) (order : List (Fin 5)) (lastIdx : ℕ)
    (rest : List (Fin 5 → Fin 3 → ℝ)) :
    ∀ (idx : ℕ) (prev : Fin 5 → Fin 3 → ℝ),
      walkEmit path order lastIdx idx rest prev =
        (((List.range rest.length).filter (emitCond rest prev lastIdx idx)).map
            fun k => path.getD (idx + k) fun _ => 0,
         ((List.range rest.length).filter (emitCond rest prev lastIdx idx)).map
            fun k => instructionFor order (rest.getD k fun _ _ => 0)) := by
  induction rest with
  | nil => intro idx prev; simp [walkEmit]
  | cons pins rest ih =>
    intro idx prev
    have hcomp : (emitCond (pins :: rest) prev lastIdx idx) ∘ Nat.succ
        = emitCond rest pins lastIdx (idx + 1) := by
      funext k
      exact emitCond_succ pins rest prev lastIdx idx k
    have hfilter : (List.range (pins :: rest).length).filter
          (emitCond (pins :: rest) prev lastIdx idx)
        = (if emitCond (pins :: rest) prev lastIdx idx 0 = true then [(0 : ℕ)] else []) ++
          ((List.range rest.length).filter (emitCond rest pins lastIdx (idx + 1))).map
            Nat.succ := by
      rw [List.length_cons, List.range_succ_eq_map, List.filter_cons,
        List.filter_map (p := emitCond (pins :: rest) prev lastIdx idx), hcomp]
      split_ifs <;> simp
    have hp0 : (emitCond (pins :: rest) prev lastIdx idx 0 = true) ↔
        (pins ≠ prev ∨ idx = lastIdx) := by
      unfold emitCond
      simp
    have hmap1 : ∀ F : List ℕ, (F.map Nat.succ).map (fun k => path.getD (idx + k) fun _ => 0)
        = F.map fun k => path.getD (idx + 1 + k) fun _ => 0 := by
      intro F
      rw [List.map_map]
      refine List.map_congr_left fun k _ => ?_
      have : idx + (k + 1) = idx + 1 + k := by omega
      simp [Function.comp, this]
    have hmap2 : ∀ F : List ℕ, (F.map Nat.succ).map
          (fun k => instructionFor order ((pins :: rest).getD k fun _ _ => 0))
        = F.map fun k => instructionFor order (rest.getD k fun _ _ => 0) := by
      intro F
      rw [List.map_map]
      refine List.map_congr_left fun k _ => ?_
      simp [Function.comp]
    simp only [walkEmit]
    rw [ih (idx + 1) pins, hfilter]
    by_cases hcond : pins ≠ prev ∨ idx = lastIdx
    · rw [if_pos hcond, if_pos (hp0.mpr hcond)]
      simp only [List.singleton_append, List.map_cons, hmap1, hmap2]
      simp
    · rw [if_neg hcond, if_neg (fun h => hcond (hp0.mp h))]
      simp only [List.nil_append, hmap1, hmap2]

lemma emittedIdxs_cons (p0 : Fin 5 → Fin 3 → ℝ) (rest : List (Fin 5 → Fin 3 → ℝ)) :
    emittedIdxs (p0 :: rest)
      = ((List.range rest.length).filter (emitCond rest p0 rest.length 1)).map Nat.succ := by
  unfold emittedIdxs
  rw [List.length_cons, List.range_succ_eq_map, List.filter_cons]
  rw [if_neg (by simp)]
  rw [List.filter_map]
  congr 1
  apply List.filter_congr
  intro k _
  unfold emitCond
  cases k with
  | zero => simp
  | succ j =>
    have h1 : 1 + (j + 1) = j + 1 + 1 := by omega
    simp [h1]

lemma norm2v_eq_zero_iff {a b : ℝ} : norm2v ![a, b] = 0 ↔ a = 0 ∧ b = 0 := by
  unfold norm2v
  simp only [Matrix.cons_val_zero, Matrix.cons_val_one, Matrix.head_cons]
  rw [Real.sqrt_eq_zero (by positivity)]
  constructor
  · intro h
    constructor
    · nlinarith [sq_nonneg a, sq_nonneg b]
    · nlinarith [sq_nonneg a, sq_nonneg b]
  · rintro ⟨ha, hb⟩
    rw [ha, hb]
    ring

lemma linspace_length (s g : Fin 4 → ℝ) (n : ℕ) : (linspace s g n).length = n := by
  simp [linspace]

lemma linspace_getD (s g : Fin 4 → ℝ) (n i : ℕ) (hi : i < n) (dflt : Fin 4 → ℝ) :
    (linspace s g n).getD i dflt = fun j => s j + (i : ℝ) * (g j - s j) / ((n : ℝ) - 1) := by
  unfold linspace
  rw [List.getD_eq_getD_get?, List.get?_map, List.get?_range hi]
  rfl

lemma body_path_none (s g : Fin 4 → ℝ) (hd : norm2v ![g 0 - s 0, g 1 - s 1] ≠ 0) :
    calculate_spider_body_path s g = none := by
  unfold calculate_spider_body_path
  rw [if_pos hd]
  rfl

lemma body_path_self (s g : Fin 4 → ℝ) (hd : norm2v ![g 0 - s 0, g 1 - s 1] = 0) :
    calculate_spider_body_path s g = some [s] := by
  unfold calculate_spider_body_path
  rw [if_neg fun h => h hd]

lemma xyDist_unit : xyDist ![(1 : ℝ), 0, 0, 0] ![0, 0, 0, 0] ≠ 0 := by
  unfold xyDist norm2v
  rw [Real.sqrt_ne_zero']
  norm_num [Matrix.cons_val_zero, Matrix.cons_val_one, Matrix.head_cons]

/-- C2 (code bug): the body path never interpolates.  The module-level
@property binding of MAX_LINEAR_STEP makes the step division raise TypeError
whenever start and goal differ horizontally, and when they coincide
horizontally the path is just the start pose, so a goal differing in any
component is never reached. -/
theorem body_path_property_object_crash :
    ∀ s g : Fin 4 → ℝ,
      (xyDist g s ≠ 0 → calculate_spider_body_path s g = none) ∧
      (xyDist g s = 0 → calculate_spider_body_path s g = some [s]) :=
  fun s g => ⟨fun hd => body_path_none s g hd, fun hd => body_path_self s g hd⟩

/-- Witness for the crash at a goal one meter away in x, and for the
degenerate single-pose path at a goal directly above the start. -/
theorem body_path_property_object_crash_witness :
    (xyDist ![(1 : ℝ), 0, 0, 0] ![0, 0, 0, 0] ≠ 0 ∧
      calculate_spider_body_path ![0, 0, 0, 0] ![(1 : ℝ), 0, 0, 0] = none) ∧
      (xyDist ![(0 : ℝ), 0, 1, 0] ![0, 0, 0, 0] = 0 ∧
        calculate_spider_body_path ![0, 0, 0, 0] ![(0 : ℝ), 0, 1, 0]
          = some [![0, 0, 0, 0]]) := by
  have h0 : xyDist ![(0 : ℝ), 0, 1, 0] ![0, 0, 0, 0] = 0 := by
    unfold xyDist norm2v
    simp
  exact ⟨⟨xyDist_unit,
      (body_path_property_object_crash ![0, 0, 0, 0] ![(1 : ℝ), 0, 0, 0]).1 xyDist_unit⟩,
    ⟨h0, (body_path_property_object_crash ![0, 0, 0, 0] ![(0 : ℝ), 0, 1, 0]).2 h0⟩⟩

/-- C4 (code bug): create_walking_instructions inherits the TypeError of
calculate_spider_body_path: for every start and goal differing horizontally
and every pin selection method it raises instead of emitting poses and pin
instructions. -/
theorem create_walking_instructions_crash :
    ∀ (s g : Fin 4 → ℝ) (m : List (Fin 4 → ℝ) → List (Fin 5 → Fin 3 → ℝ)),
      xyDist g s ≠ 0 → create_walking_instructions s g m = none := by
  intro s g m hd
  unfold create_walking_instructions
  rw [body_path_none s g hd]

/-- Witness for the instruction-generation crash at a goal one meter away
in x, with the trivial pin selection method. -/
theorem create_walking_instructions_crash_witness :
    xyDist ![(1 : ℝ), 0, 0, 0] ![0, 0, 0, 0] ≠ 0 ∧
      create_walking_instructions ![0, 0, 0, 0] ![(1 : ℝ), 0, 0, 0] (fun _ => []) = none :=
  ⟨xyDist_unit,
    create_walking_instructions_crash ![0, 0, 0, 0] ![(1 : ℝ), 0, 0, 0] (fun _ => [])
      xyDist_unit⟩

lemma gatherPoses_eq (ids : List ℕ) (pos : List (Fin 3 → ℝ)) (qA : ℕ → Fin 3 → ℝ) :
    ∀ cs : List (ℕ × ℕ × ℕ),
      gatherPoses ids pos qA cs
        = ((cs.filter fun c => decide (¬ skipCombo ids pos c)).map (comboPose ids pos qA)) := by
  intro cs
  induction cs with
  | nil => simp [gatherPoses]
  | cons c rest ih =>
    rw [gatherPoses, List.filter_cons]
    by_cases h : skipCombo ids pos c
    · rw [if_pos h, if_neg (by simp [h]), ih]
    · rw [if_neg h, if_pos (by simp [h]), List.map_cons, ih]

/-- C6 (corrected): getSpiderPose accumulates one candidate pose per
three-leg combination not caught by the skip test, and returns the
componentwise arithmetic mean of those candidates; the skip test drops
exactly the combinations whose three footholds share one x value or share
one y value. -/
theorem getSpiderPose_mean :
    ∀ (ids : List ℕ) (pos : List (Fin 3 → ℝ)) (qA : ℕ → Fin 3 → ℝ) (j : Fin 6),
      getSpiderPose ids pos qA j =
        (((combos3 ids).filter fun c => decide (¬ skipCombo ids pos c)).map
            fun c => comboPose ids pos qA c j).sum /
          (((combos3 ids).filter fun c => decide (¬ skipCombo ids pos c)).length) := by
  intro ids pos qA j
  unfold getSpiderPose
  rw [gatherPoses_eq, List.map_map, List.length_map]
  rfl

/-- Counterexample to C6 as stated: three collinear footholds on the
diagonal are not skipped by getSpiderPose, because the skip test only
detects a shared x value or a shared y value; the combination produces a
candidate pose. -/
theorem getSpiderPose_collinear_not_skipped :
    Collinear ℝ ({![0, 0, 0], ![1, 1, 0], ![2, 2, 0]} : Set (Fin 3 → ℝ)) ∧
    ¬ skipCombo [0, 1, 2] [![0, 0, 0], ![1, 1, 0], ![2, 2, 0]] (0, 1, 2) ∧
    (gatherPoses [0, 1, 2] [![0, 0, 0], ![1, 1, 0], ![2, 2, 0]] (fun _ _ => 0)
        (combos3 [0, 1, 2])).length = 1 := by
  have hskip : ¬ skipCombo [0, 1, 2] [![0, 0, 0], ![1, 1, 0], ![2, 2, 0]] (0, 1, 2) := by
    unfold skipCombo posOfLeg
    norm_num
  refine ⟨?_, hskip, ?_⟩
  · rw [collinear_iff_of_mem (Set.mem_insert _ _)]
    refine ⟨![1, 1, 0], ?_⟩
    intro p hp
    rcases hp with h | h | h
    · exact ⟨0, by rw [h]; funext j; fin_cases j <;> simp⟩
    · exact ⟨1, by rw [h]; funext j; fin_cases j <;> simp⟩
    · rw [Set.mem_singleton_iff] at h
      refine ⟨2, ?_⟩
      rw [h]
      funext j
      fin_cases j <;> norm_num
  · rw [show combos3 [0, 1, 2] = [(0, 1, 2)] from rfl]
    rw [gatherPoses, if_neg hskip]
    simp [gatherPoses]

/-- C7: every entry of legJacobi is the analytic partial derivative of the
corresponding component of the tip position column of legForwardKinematics
with respect to the corresponding joint angle, at every joint configuration. -/
theorem legJacobi_partial_derivatives :
    ∀ (q1 q2 q3 : ℝ) (i : Fin 3),
      HasDerivAt (fun t => tipOf (legForwardKinematics t q2 q3) i)
        (legJacobi q1 q2 q3 i 0) q1 ∧
      HasDerivAt (fun t => tipOf (legForwardKinematics q1 t q3) i)
        (legJacobi q1 q2 q3 i 1) q2 ∧
      HasDerivAt (fun t => tipOf (legForwardKinematics q1 q2 t) i)
        (legJacobi q1 q2 q3 i 2) q3 := by
  intro q1 q2 q3 i
  have hC2 : HasDerivAt (fun t => L1 + L2 * cos t + L3 * cos (t + q3))
      (-(L2 * sin q2) - L3 * sin (q2 + q3)) q2 := by
    have h := ((hasDerivAt_const q2 L1).add ((Real.hasDerivAt_cos q2).const_mul L2)).add
      ((((hasDerivAt_id' q2).add_const q3).cos).const_mul L3)
    convert h using 1
    ring
  have hC3 : HasDerivAt (fun t => L1 + L2 * cos q2 + L3 * cos (q2 + t))
      (-(L3 * sin (q2 + q3))) q3 := by
    have h := (hasDerivAt_const q3 (L1 + L2 * cos q2)).add
      ((((hasDerivAt_id' q3).const_add q2).cos).const_mul L3)
    convert h using 1
    ring
  have hZ2 : HasDerivAt (fun t => L2 * sin t + L3 * sin (t + q3))
      (L2 * cos q2 + L3 * cos (q2 + q3)) q2 := by
    have h := ((Real.hasDerivAt_sin q2).const_mul L2).add
      ((((hasDerivAt_id' q2).add_const q3).sin).const_mul L3)
    convert h using 1
    ring
  have hZ3 : HasDerivAt (fun t => L2 * sin q2 + L3 * sin (q2 + t)) (L3 * cos (q2 + q3)) q3 := by
    have h := (hasDerivAt_const q3 (L2 * sin q2)).add
      ((((hasDerivAt_id' q3).const_add q2).sin).const_mul L3)
    convert h using 1
    ring
  fin_cases i <;> refine ⟨?_, ?_, ?_⟩
  · exact ((Real.hasDerivAt_cos q1).mul_const
      (L1 + L2 * cos q2 + L3 * cos (q2 + q3))).congr_deriv
      (by show -sin q1 * (L1 + L2 * cos q2 + L3 * cos (q2 + q3))
            = -(L1 + L2 * cos q2 + L3 * cos (q2 + q3)) * sin q1
          ring)
  · exact (hC2.const_mul (cos q1)).congr_deriv
      (by show cos q1 * (-(L2 * sin q2) - L3 * sin (q2 + q3))
            = -(cos q1) * (L2 * sin q2 + L3 * sin (q2 + q3))
          ring)
  · exact (hC3.const_mul (cos q1)).congr_deriv
      (by show cos q1 * -(L3 * sin (q2 + q3)) = -L3 * cos q1 * sin (q2 + q3)
          ring)
  · exact ((Real.hasDerivAt_sin q1).const_mul
      (L1 + L2 * cos q2 + L3 * cos (q2 + q3))).congr_deriv
      (by show (L1 + L2 * cos q2 + L3 * cos (q2 + q3)) * cos q1
            = cos q1 * (L1 + L2 * cos q2 + L3 * cos (q2 + q3))
          ring)
  · exact (hC2.mul_const (sin q1)).congr_deriv
      (by show (-(L2 * sin q2) - L3 * sin (q2 + q3)) * sin q1
            = -(sin q1) * (L2 * sin q2 + L3 * sin (q2 + q3))
          ring)
  · exact (hC3.mul_const (sin q1)).congr_deriv
      (by show -(L3 * sin (q2 + q3)) * sin q1 = -L3 * sin q1 * sin (q2 + q3)
          ring)
  · exact hasDerivAt_const q1 (L2 * sin q2 + L3 * sin (q2 + q3))
  · exact hZ2
  · exact hZ3

lemma roundHalfEven_bounds {y : ℝ} {N : ℤ} (hN : 2 ∣ N)
    (h1 : -(N : ℝ) - 1 / 2 ≤ y) (h2 : y ≤ (N : ℝ) + 1 / 2) :
    -N ≤ roundHalfEven y ∧ roundHalfEven y ≤ N := by
  have hfl : ((⌊y⌋ : ℤ) : ℝ) ≤ y := Int.floor_le y
  have hfu : y < (⌊y⌋ : ℝ) + 1 := Int.lt_floor_add_one y
  have hfr : Int.fract y = y - ⌊y⌋ := rfl
  unfold roundHalfEven
  split_ifs with hf1 hf2 he
  · rw [hfr] at hf1
    constructor
    · have hA : -(N : ℝ) - 1 < (⌊y⌋ : ℝ) := by linarith
      have hA2 : -N - 1 < ⌊y⌋ := by exact_mod_cast hA
      omega
    · have hB : (⌊y⌋ : ℝ) < (N : ℝ) + 1 := by linarith
      have hB2 : ⌊y⌋ < N + 1 := by exact_mod_cast hB
      omega
  · rw [hfr] at hf2
    constructor
    · have hA : -(N : ℝ) - 2 < (⌊y⌋ : ℝ) := by linarith
      have hA2 : -N - 2 < ⌊y⌋ := by exact_mod_cast hA
      omega
    · have hB : (⌊y⌋ : ℝ) < (N : ℝ) := by linarith
      have hB2 : ⌊y⌋ < N := by exact_mod_cast hB
      omega
  · have hhalf : Int.fract y = 1 / 2 := le_antisymm (not_lt.mp hf2) (not_lt.mp hf1)
    rw [hfr] at hhalf
    constructor
    · have hA : -(N : ℝ) - 1 ≤ (⌊y⌋ : ℝ) := by linarith
      have hA2 : -N - 1 ≤ ⌊y⌋ := by exact_mod_cast hA
      omega
    · have hB : (⌊y⌋ : ℝ) ≤ (N : ℝ) := by linarith
      exact_mod_cast hB
  · have hhalf : Int.fract y = 1 / 2 := le_antisymm (not_lt.mp hf2) (not_lt.mp hf1)
    rw [hfr] at hhalf
    constructor
    · have hA : -(N : ℝ) - 1 ≤ (⌊y⌋ : ℝ) := by linarith
      have hA2 : -N - 1 ≤ ⌊y⌋ := by exact_mod_cast hA
      omega
    · have hB : (⌊y⌋ : ℝ) ≤ (N : ℝ) := by linarith
      have hB2 : ⌊y⌋ ≤ N := by exact_mod_cast hB
      omega

lemma round4_abs_le_one {x : ℝ} (h : |x| ≤ 1 + 1 / 20000) :
    -1 ≤ round4 x ∧ round4 x ≤ 1 := by
  rw [abs_le] at h
  have h1 : -((10000 : ℤ) : ℝ) - 1 / 2 ≤ x * 10000 := by
    push_cast
    nlinarith [h.1]
  have h2 : x * 10000 ≤ ((10000 : ℤ) : ℝ) + 1 / 2 := by
    push_cast
    nlinarith [h.2]
  have hb := roundHalfEven_bounds (by norm_num) h1 h2
  have hc1 : (-10000 : ℝ) ≤ (roundHalfEven (x * 10000) : ℝ) := by exact_mod_cast hb.1
  have hc2 : ((roundHalfEven (x * 10000) : ℝ)) ≤ 10000 := by exact_mod_cast hb.2
  unfold round4
  constructor
  · linarith
  · linarith

/-- C8: legInverseKinematics never fails on the inverse cosine when the raw
law-of-cosines argument exceeds the domain by at most the rounding margin:
whenever the raw argument has absolute value at most 1 + 1/20000, the
rounded argument lies in [-1, 1] and the call returns joint angles. -/
theorem legInverseKinematics_domain_safe :
    ∀ p : Fin 3 → ℝ, |acosArgumentRaw p| ≤ 1 + 1 / 20000 →
      ∃ q : ℝ × ℝ × ℝ, legInverseKinematics p = some q := by
  intro p h
  have hb := round4_abs_le_one h
  simp only [legInverseKinematics]
  rw [if_pos ⟨hb.1, hb.2⟩]
  exact ⟨_, rfl⟩

/-- Witness for C8 at a concrete reachable tip position with raw acos
argument zero. -/
theorem legInverseKinematics_domain_safe_witness :
    |acosArgumentRaw ![0.364, 0, -0.276]| ≤ 1 + 1 / 20000 ∧
      ∃ q : ℝ × ℝ × ℝ, legInverseKinematics ![0.364, 0, -0.276] = some q := by
  have hfj : ikFirstJoint ![0.364, 0, -0.276] = 0 := by
    unfold ikFirstJoint
    simp only [Matrix.cons_val_zero, Matrix.cons_val_one, Matrix.head_cons]
    rw [if_neg (by norm_num), atan2_of_pos (by norm_num)]
    simp
  have harg : acosArgumentRaw ![0.364, 0, -0.276] = 0 := by
    unfold acosArgumentRaw ikR
    rw [hfj]
    unfold secondJointPosition
    simp only [Matrix.cons_val_zero, Matrix.cons_val_one, Matrix.head_cons,
      Real.cos_zero, Real.sin_zero, Matrix.cons_val_two, Matrix.tail_cons]
    unfold L1 L2 L3
    rw [Real.sq_sqrt (by norm_num)]
    norm_num
  have habs : |acosArgumentRaw ![0.364, 0, -0.276]| ≤ 1 + 1 / 20000 := by
    rw [harg]
    norm_num
  exact ⟨habs, legInverseKinematics_domain_safe _ habs⟩

lemma sin_q3_nonpos {q3 : ℝ} (h1 : -π ≤ q3) (h2 : q3 ≤ 0) : sin q3 ≤ 0 := by
  have h := Real.sin_nonneg_of_nonneg_of_le_pi (x := -q3) (by linarith) (by linarith)
  rw [Real.sin_neg] at h
  linarith

lemma u_pos {q3 : ℝ} : 0 < L2 + L3 * cos q3 := by
  have h := Real.neg_one_le_cos q3
  unfold L2 L3
  nlinarith

set_option maxHeartbeats 1600000 in
/-- C1 (corrected): on tip positions produced by forward kinematics from a
configuration inside the workspace limits, inverse kinematics recovers the
joint angles exactly, provided rounding the cosine of the third joint angle
to four decimals is exact.  The first joint and the elbow-down branch are
recovered by construction; the only obstruction to the general round trip is
the np.round introduced before the inverse cosine. -/
theorem legIK_FK_roundtrip :
    ∀ q1 q2 q3 : ℝ, withinWorkspace q1 q2 q3 → round4 (cos q3) = cos q3 →
      legInverseKinematics (tipOf (legForwardKinematics q1 q2 q3)) = some (q1, q2, q3) := by
  intro q1 q2 q3 hW hround
  obtain ⟨hq1, hq3l, hq3u, _hrmin, _hrmax, hR, hb1, hb2⟩ := hW
  have hπ := Real.pi_pos
  rw [show CONSTRAINS_ANGLE = π / 3 from by unfold CONSTRAINS_ANGLE; ring] at hq1
  rw [abs_lt] at hq1
  have hRpos : 0 < L1 + L2 * cos q2 + L3 * cos (q2 + q3) := hR
  have hcq1 : 0 < cos q1 :=
    Real.cos_pos_of_mem_Ioo ⟨by linarith, by linarith⟩
  have hp0 : tipOf (legForwardKinematics q1 q2 q3) 0
      = cos q1 * (L1 + L2 * cos q2 + L3 * cos (q2 + q3)) := rfl
  have hp1 : tipOf (legForwardKinematics q1 q2 q3) 1
      = (L1 + L2 * cos q2 + L3 * cos (q2 + q3)) * sin q1 := rfl
  have hp2 : tipOf (legForwardKinematics q1 q2 q3) 2
      = L2 * sin q2 + L3 * sin (q2 + q3) := rfl
  have hp0pos : 0 < tipOf (legForwardKinematics q1 q2 q3) 0 := by
    rw [hp0]
    exact mul_pos hcq1 hRpos
  -- first joint recovery
  have hq1rec : ikFirstJoint (tipOf (legForwardKinematics q1 q2 q3)) = q1 := by
    unfold ikFirstJoint
    rw [if_neg (not_lt.mpr hp0pos.le), hp1, hp0,
      mul_comm (cos q1) (L1 + L2 * cos q2 + L3 * cos (q2 + q3))]
    exact atan2_rot hRpos (by linarith [hq1.1]) (by linarith [hq1.2])
  have hs0 : secondJointPosition q1 0 = L1 * cos q1 := rfl
  have hs1 : secondJointPosition q1 1 = L1 * sin q1 := rfl
  have hs2 : secondJointPosition q1 2 = 0 := rfl
  have hv0 : tipOf (legForwardKinematics q1 q2 q3) 0 - secondJointPosition q1 0
      = cos q1 * (L2 * cos q2 + L3 * cos (q2 + q3)) := by
    rw [hp0, hs0]
    ring
  have hv1 : tipOf (legForwardKinematics q1 q2 q3) 1 - secondJointPosition q1 1
      = sin q1 * (L2 * cos q2 + L3 * cos (q2 + q3)) := by
    rw [hp1, hs1]
    ring
  have hv2 : tipOf (legForwardKinematics q1 q2 q3) 2 - secondJointPosition q1 2
      = L2 * sin q2 + L3 * sin (q2 + q3) := by
    rw [hp2, hs2]
    ring
  have hpyth : sin q1 ^ 2 + cos q1 ^ 2 = 1 := Real.sin_sq_add_cos_sq q1
  have hsum2 : (tipOf (legForwardKinematics q1 q2 q3) 0 - secondJointPosition q1 0) ^ 2 +
      (tipOf (legForwardKinematics q1 q2 q3) 1 - secondJointPosition q1 1) ^ 2
      = (L2 * cos q2 + L3 * cos (q2 + q3)) ^ 2 := by
    rw [hv0, hv1]
    linear_combination (L2 * cos q2 + L3 * cos (q2 + q3)) ^ 2 * hpyth
  have hrho : L2 * cos q2 + L3 * cos (q2 + q3)
      = (L2 + L3 * cos q3) * cos q2 - L3 * sin q3 * sin q2 := by
    rw [Real.cos_add]
    ring
  have hZ : L2 * sin q2 + L3 * sin (q2 + q3)
      = (L2 + L3 * cos q3) * sin q2 + L3 * sin q3 * cos q2 := by
    rw [Real.sin_add]
    ring
  have hpyth2 : sin q2 ^ 2 + cos q2 ^ 2 = 1 := Real.sin_sq_add_cos_sq q2
  have hpyth3 : sin q3 ^ 2 + cos q3 ^ 2 = 1 := Real.sin_sq_add_cos_sq q3
  have hlaw : (L2 * cos q2 + L3 * cos (q2 + q3)) ^ 2 +
      (L2 * sin q2 + L3 * sin (q2 + q3)) ^ 2
      = L2 ^ 2 + L3 ^ 2 + 2 * L2 * L3 * cos q3 := by
    rw [hrho, hZ]
    linear_combination ((L2 + L3 * cos q3) ^ 2 + (L3 * sin q3) ^ 2) * hpyth2 +
      L3 ^ 2 * hpyth3
  have hikR2 : (ikR (tipOf (legForwardKinematics q1 q2 q3))) ^ 2
      = L2 ^ 2 + L3 ^ 2 + 2 * L2 * L3 * cos q3 := by
    unfold ikR
    rw [hq1rec, Real.sq_sqrt (by positivity)]
    rw [hv0, hv1, hv2]
    linear_combination (L2 * cos q2 + L3 * cos (q2 + q3)) ^ 2 * hpyth + hlaw
  have hargraw : acosArgumentRaw (tipOf (legForwardKinematics q1 q2 q3)) = cos q3 := by
    unfold acosArgumentRaw
    rw [hikR2,
      show L2 ^ 2 + L3 ^ 2 + 2 * L2 * L3 * cos q3 - L2 ^ 2 - L3 ^ 2
        = 2 * L2 * L3 * cos q3 from by ring]
    exact mul_div_cancel_left₀ _ (by unfold L2 L3; norm_num)
  have hq3rec : -arccos (cos q3) = q3 := by
    rw [← Real.cos_neg q3, Real.arccos_cos (by linarith) (by linarith)]
    ring
  have hu : 0 < L2 + L3 * cos q3 := u_pos
  have hw : L3 * sin q3 ≤ 0 :=
    mul_nonpos_of_nonneg_of_nonpos (by unfold L3; norm_num) (sin_q3_nonpos hq3l hq3u)
  have hbeta0 : atan2 (L3 * sin q3) (L2 + L3 * cos q3) ≤ 0 := by
    rw [atan2_of_pos hu]
    have hq : L3 * sin q3 / (L2 + L3 * cos q3) ≤ 0 := div_nonpos_of_nonpos_of_nonneg hw hu.le
    calc arctan (L3 * sin q3 / (L2 + L3 * cos q3)) ≤ arctan 0 :=
          arctan_strictMono.monotone hq
      _ = 0 := Real.arctan_zero
  have hmpos : 0 < Real.sqrt ((L2 + L3 * cos q3) ^ 2 + (L3 * sin q3) ^ 2) := by
    apply Real.sqrt_pos.mpr
    have hsq : 0 < (L2 + L3 * cos q3) ^ 2 := pow_pos hu 2
    linarith [sq_nonneg (L3 * sin q3)]
  have hdiv : Real.sqrt (1 + (L3 * sin q3 / (L2 + L3 * cos q3)) ^ 2)
      = Real.sqrt ((L2 + L3 * cos q3) ^ 2 + (L3 * sin q3) ^ 2) / (L2 + L3 * cos q3) := by
    rw [show 1 + (L3 * sin q3 / (L2 + L3 * cos q3)) ^ 2
        = ((L2 + L3 * cos q3) ^ 2 + (L3 * sin q3) ^ 2) / (L2 + L3 * cos q3) ^ 2 from by
      field_simp]
    rw [Real.sqrt_div (by positivity) _, Real.sqrt_sq hu.le]
  have hcosb : L2 + L3 * cos q3
      = Real.sqrt ((L2 + L3 * cos q3) ^ 2 + (L3 * sin q3) ^ 2)
        * cos (atan2 (L3 * sin q3) (L2 + L3 * cos q3)) := by
    rw [atan2_of_pos hu, Real.cos_arctan, hdiv, one_div_div]
    field_simp
  have hsinb : L3 * sin q3
      = Real.sqrt ((L2 + L3 * cos q3) ^ 2 + (L3 * sin q3) ^ 2)
        * sin (atan2 (L3 * sin q3) (L2 + L3 * cos q3)) := by
    rw [atan2_of_pos hu, Real.sin_arctan, hdiv]
    field_simp [hu.ne', hmpos.ne']
  have hrhorot : L2 * cos q2 + L3 * cos (q2 + q3)
      = Real.sqrt ((L2 + L3 * cos q3) ^ 2 + (L3 * sin q3) ^ 2)
        * cos (q2 + atan2 (L3 * sin q3) (L2 + L3 * cos q3)) := by
    rw [Real.cos_add, Real.cos_add]
    linear_combination cos q2 * hcosb - sin q2 * hsinb
  have hZrot : L2 * sin q2 + L3 * sin (q2 + q3)
      = Real.sqrt ((L2 + L3 * cos q3) ^ 2 + (L3 * sin q3) ^ 2)
        * sin (q2 + atan2 (L3 * sin q3) (L2 + L3 * cos q3)) := by
    rw [Real.sin_add, Real.sin_add]
    linear_combination sin q2 * hcosb + cos q2 * hsinb
  have hbb1 : -π < q2 + atan2 (L3 * sin q3) (L2 + L3 * cos q3) := hb1
  have hbb2 : q2 + atan2 (L3 * sin q3) (L2 + L3 * cos q3) ≤ π := hb2
  -- assemble
  simp only [legInverseKinematics]
  rw [hargraw, hround, if_pos ⟨Real.neg_one_le_cos q3, Real.cos_le_one q3⟩, hq1rec, hq3rec]
  have hxy : (if secondJointPosition q1 0 ≤ tipOf (legForwardKinematics q1 q2 q3) 0 then
        Real.sqrt ((tipOf (legForwardKinematics q1 q2 q3) 0 - secondJointPosition q1 0) ^ 2 +
          (tipOf (legForwardKinematics q1 q2 q3) 1 - secondJointPosition q1 1) ^ 2)
      else
        -Real.sqrt ((tipOf (legForwardKinematics q1 q2 q3) 0 - secondJointPosition q1 0) ^ 2 +
          (tipOf (legForwardKinematics q1 q2 q3) 1 - secondJointPosition q1 1) ^ 2))
      = L2 * cos q2 + L3 * cos (q2 + q3) := by
    by_cases hsgn : 0 ≤ L2 * cos q2 + L3 * cos (q2 + q3)
    · have hcond : secondJointPosition q1 0 ≤ tipOf (legForwardKinematics q1 q2 q3) 0 := by
        have h := mul_nonneg hcq1.le hsgn
        rw [← hv0] at h
        linarith
      rw [if_pos hcond, hsum2, Real.sqrt_sq hsgn]
    · push_neg at hsgn
      have hcond : ¬(secondJointPosition q1 0 ≤ tipOf (legForwardKinematics q1 q2 q3) 0) := by
        have h := mul_neg_of_pos_of_neg hcq1 hsgn
        rw [← hv0] at h
        push_neg
        linarith
      rw [if_neg hcond, hsum2, Real.sqrt_sq_eq_abs, abs_of_neg hsgn]
      ring
  rw [hxy, hv2, hZrot, hrhorot, atan2_rot hmpos hbb1 hbb2, abs_of_nonpos hbeta0,
    show -atan2 (L3 * sin q3) (L2 + L3 * cos q3) +
        (q2 + atan2 (L3 * sin q3) (L2 + L3 * cos q3)) = q2 from by ring]

lemma withinWorkspace_zero_zero {q3 c : ℝ} (hc : cos q3 = c)
    (h3l : -π ≤ q3) (h3u : q3 ≤ 0)
    (hcl : 0.0225 < L2 ^ 2 + L3 ^ 2 + 2 * L2 * L3 * c)
    (hcu : L2 ^ 2 + L3 ^ 2 + 2 * L2 * L3 * c < 0.2025)
    (hre : 0 < L1 + L2 + L3 * c) :
    withinWorkspace 0 0 q3 := by
  have hπ := Real.pi_pos
  unfold withinWorkspace
  refine ⟨?_, h3l, h3u, ?_, ?_, ?_, ?_, ?_⟩
  · rw [abs_zero]
    unfold CONSTRAINS_ANGLE
    positivity
  · unfold CONSTRAINS_MIN legRadius
    rw [hc, show (0.15 : ℝ) = Real.sqrt 0.0225 from (sqrt_eval (by norm_num) (by norm_num)).symm]
    exact Real.sqrt_lt_sqrt (by norm_num) hcl
  · unfold CONSTRAINS_MAX legRadius
    rw [hc, show (0.45 : ℝ) = Real.sqrt 0.2025 from (sqrt_eval (by norm_num) (by norm_num)).symm]
    exact Real.sqrt_lt_sqrt (by linarith) hcu
  · unfold radialExtension
    rw [Real.cos_zero, zero_add, hc, mul_one]
    exact hre
  · unfold betaAngle
    rw [atan2_of_pos u_pos]
    have h := Real.neg_pi_div_two_lt_arctan (L3 * sin q3 / (L2 + L3 * cos q3))
    linarith
  · unfold betaAngle
    rw [atan2_of_pos u_pos]
    have h := Real.arctan_lt_pi_div_two (L3 * sin q3 / (L2 + L3 * cos q3))
    linarith

/-- The law-of-cosines argument evaluated on a forward-kinematics tip: it is
exactly the cosine of the third joint angle, before any rounding. -/
lemma acosArgumentRaw_fk (q1 q2 q3 : ℝ) (h1 : -(π / 2) < q1) (h2 : q1 < π / 2)
    (hR : 0 < L1 + L2 * cos q2 + L3 * cos (q2 + q3)) :
    acosArgumentRaw (tipOf (legForwardKinematics q1 q2 q3)) = cos q3 := by
  have hπ := Real.pi_pos
  have hcq1 : 0 < cos q1 := Real.cos_pos_of_mem_Ioo ⟨h1, h2⟩
  have hp0 : tipOf (legForwardKinematics q1 q2 q3) 0
      = cos q1 * (L1 + L2 * cos q2 + L3 * cos (q2 + q3)) := rfl
  have hp1 : tipOf (legForwardKinematics q1 q2 q3) 1
      = (L1 + L2 * cos q2 + L3 * cos (q2 + q3)) * sin q1 := rfl
  have hp2 : tipOf (legForwardKinematics q1 q2 q3) 2
      = L2 * sin q2 + L3 * sin (q2 + q3) := rfl
  have hp0pos : 0 < tipOf (legForwardKinematics q1 q2 q3) 0 := by
    rw [hp0]
    exact mul_pos hcq1 hR
  have hq1rec : ikFirstJoint (tipOf (legForwardKinematics q1 q2 q3)) = q1 := by
    unfold ikFirstJoint
    rw [if_neg (not_lt.mpr hp0pos.le), hp1, hp0,
      mul_comm (cos q1) (L1 + L2 * cos q2 + L3 * cos (q2 + q3))]
    exact atan2_rot hR (by linarith) (by linarith)
  have hs0 : secondJointPosition q1 0 = L1 * cos q1 := rfl
  have hs1 : secondJointPosition q1 1 = L1 * sin q1 := rfl
  have hs2 : secondJointPosition q1 2 = 0 := rfl
  have hv0 : tipOf (legForwardKinematics q1 q2 q3) 0 - secondJointPosition q1 0
      = cos q1 * (L2 * cos q2 + L3 * cos (q2 + q3)) := by
    rw [hp0, hs0]
    ring
  have hv1 : tipOf (legForwardKinematics q1 q2 q3) 1 - secondJointPosition q1 1
      = sin q1 * (L2 * cos q2 + L3 * cos (q2 + q3)) := by
    rw [hp1, hs1]
    ring
  have hv2 : tipOf (legForwardKinematics q1 q2 q3) 2 - secondJointPosition q1 2
      = L2 * sin q2 + L3 * sin (q2 + q3) := by
    rw [hp2, hs2]
    ring
  have hpyth : sin q1 ^ 2 + cos q1 ^ 2 = 1 := Real.sin_sq_add_cos_sq q1
  have hpyth2 : sin q2 ^ 2 + cos q2 ^ 2 = 1 := Real.sin_sq_add_cos_sq q2
  have hpyth3 : sin q3 ^ 2 + cos q3 ^ 2 = 1 := Real.sin_sq_add_cos_sq q3
  have hrho : L2 * cos q2 + L3 * cos (q2 + q3)
      = (L2 + L3 * cos q3) * cos q2 - L3 * sin q3 * sin q2 := by
    rw [Real.cos_add]
    ring
  have hZ : L2 * sin q2 + L3 * sin (q2 + q3)
      = (L2 + L3 * cos q3) * sin q2 + L3 * sin q3 * cos q2 := by
    rw [Real.sin_add]
    ring
  have hlaw : (L2 * cos q2 + L3 * cos (q2 + q3)) ^ 2 +
      (L2 * sin q2 + L3 * sin (q2 + q3)) ^ 2
      = L2 ^ 2 + L3 ^ 2 + 2 * L2 * L3 * cos q3 := by
    rw [hrho, hZ]
    linear_combination ((L2 + L3 * cos q3) ^ 2 + (L3 * sin q3) ^ 2) * hpyth2 +
      L3 ^ 2 * hpyth3
  have hikR2 : (ikR (tipOf (legForwardKinematics q1 q2 q3))) ^ 2
      = L2 ^ 2 + L3 ^ 2 + 2 * L2 * L3 * cos q3 := by
    unfold ikR
    rw [hq1rec, Real.sq_sqrt (by positivity)]
    rw [hv0, hv1, hv2]
    linear_combination (L2 * cos q2 + L3 * cos (q2 + q3)) ^ 2 * hpyth + hlaw
  unfold acosArgumentRaw
  rw [hikR2,
    show L2 ^ 2 + L3 ^ 2 + 2 * L2 * L3 * cos q3 - L2 ^ 2 - L3 ^ 2
      = 2 * L2 * L3 * cos q3 from by ring]
  exact mul_div_cancel_left₀ _ (by unfold L2 L3; norm_num)

/-- Witness for the round trip at the configuration (0, 0, -pi/2), where the
cosine of the third joint is 0 and rounds to itself. -/
theorem legIK_FK_roundtrip_witness :
    withinWorkspace 0 0 (-(π / 2)) ∧ round4 (cos (-(π / 2))) = cos (-(π / 2)) ∧
      legInverseKinematics (tipOf (legForwardKinematics 0 0 (-(π / 2))))
        = some (0, 0, -(π / 2)) := by
  have hc : cos (-(π / 2)) = 0 := by rw [Real.cos_neg, Real.cos_pi_div_two]
  have hW : withinWorkspace 0 0 (-(π / 2)) :=
    withinWorkspace_zero_zero hc (by linarith [Real.pi_pos]) (by linarith [Real.pi_pos])
      (by unfold L2 L3; norm_num) (by unfold L2 L3; norm_num)
      (by unfold L1 L2 L3; norm_num)
  have hr : round4 (cos (-(π / 2))) = cos (-(π / 2)) := by
    rw [hc]
    exact round4_zero
  exact ⟨hW, hr, legIK_FK_roundtrip 0 0 (-(π / 2)) hW hr⟩

/-- Counterexample to the unconditional round trip: at the in-workspace
configuration (0, 0, -arccos (1/7)) the law-of-cosines argument is exactly
1/7, np.round moves it to 0.1429, and the recovered third joint angle is
-arccos (0.1429), not -arccos (1/7). -/
theorem legIK_FK_roundtrip_counterexample :
    withinWorkspace 0 0 (-arccos (1 / 7)) ∧
      legInverseKinematics (tipOf (legForwardKinematics 0 0 (-arccos (1 / 7))))
        ≠ some (0, 0, -arccos (1 / 7)) := by
  have hπ := Real.pi_pos
  have hc : cos (-arccos ((1 : ℝ) / 7)) = 1 / 7 := by
    rw [Real.cos_neg, Real.cos_arccos (by norm_num) (by norm_num)]
  have hW : withinWorkspace 0 0 (-arccos (1 / 7)) :=
    withinWorkspace_zero_zero hc
      (by linarith [Real.arccos_le_pi ((1 : ℝ) / 7)])
      (by linarith [Real.arccos_nonneg ((1 : ℝ) / 7)])
      (by unfold L2 L3; norm_num) (by unfold L2 L3; norm_num)
      (by unfold L1 L2 L3; norm_num)
  refine ⟨hW, ?_⟩
  intro heq
  have harg : acosArgumentRaw (tipOf (legForwardKinematics 0 0 (-arccos (1 / 7))))
      = 1 / 7 := by
    have hR : 0 < L1 + L2 * cos 0 + L3 * cos (0 + -arccos ((1 : ℝ) / 7)) := by
      rw [Real.cos_zero, zero_add, hc]
      unfold L1 L2 L3
      norm_num
    rw [acosArgumentRaw_fk 0 0 (-arccos (1 / 7)) (by linarith) (by linarith) hR, hc]
  have hfl : ⌊(1 : ℝ) / 7 * 10000⌋ = 1428 := by
    rw [show (1 : ℝ) / 7 * 10000 = 10000 / 7 from by ring, Int.floor_eq_iff]
    constructor <;> norm_num
  have hfr : Int.fract ((1 : ℝ) / 7 * 10000) = 4 / 7 := by
    unfold Int.fract
    rw [hfl]
    norm_num
  have hround17 : round4 ((1 : ℝ) / 7) = 1429 / 10000 := by
    unfold round4 roundHalfEven
    rw [hfr, hfl, if_neg (by norm_num), if_pos (by norm_num)]
    norm_num
  have hcond : (-1 : ℝ) ≤ 1429 / 10000 ∧ (1429 : ℝ) / 10000 ≤ 1 := by norm_num
  simp only [legInverseKinematics] at heq
  rw [harg, hround17, if_pos hcond] at heq
  have h3 : -arccos ((1429 : ℝ) / 10000) = -arccos ((1 : ℝ) / 7) :=
    congrArg (fun t : ℝ × ℝ × ℝ => t.2.2) (Option.some_injective _ heq)
  have h4 : arccos ((1429 : ℝ) / 10000) = arccos ((1 : ℝ) / 7) := neg_injective h3
  have h5 := congrArg Real.cos h4
  rw [Real.cos_arccos (by norm_num) (by norm_num),
    Real.cos_arccos (by norm_num) (by norm_num)] at h5
  norm_num at h5

end GreenWall

end
